import Mathlib

/-!
# GoHue `light.go` — state-synchronization core, shallow embedding

This file embeds the light-state synchronization core of the GoHue
library (`src/light.go`, package `hue`) in Lean 4 and proves the spec's
claims about it.  The source file holds two near-identical revisions of
the same code; per the spec they form one canonical design: the newer
revision's `Light.SetState` / `Light.Blink`, together with
`GetAllLights`, `GetLightByIndex` and `GetLightByName`.

Modelling conventions:
* The transport collaborator (`Bridge.Get` / `Bridge.Put`, defined in
  `bridge.go`, outside `src/`) is an abstract environment `Env σ`: a
  world-state type `σ` with a put, a get, and a JSON-decode oracle.
  Stateful Go code becomes explicit state passing over `σ`.
* Go `error` is `Option Err` (`none` = `nil`); a Go function returning
  `(Light, error)` becomes `Light × Option Err × σ`.
* Go machine integers are `Int`/`Nat` with explicit `% 256` where the
  code converts to `uint8`.
* The `[2]float32` CIE coordinates are carried as exact rationals; the
  modelled code never performs floating-point arithmetic on them, it
  only stores and copies them.
* `json.Unmarshal` is the oracle `Env.decodeF : String → Option Light`;
  decode failure leaves the zero-initialized target untouched (the
  spec's "successful decode path vs. failure path").
* `time.Sleep` has no observable effect on the modelled state and is
  dropped; step counts (not wall-clock cadence) are modelled.
-/

namespace GoHue

/-- Go `error` values, carried as their message strings. -/
abbrev Err := String

/-- The Bridge collaborator, reduced to the identity data the embedded
code reads from it (`bridge.Username`).  Transport behavior lives in
`Env`. -/
structure Bridge where
  username : String
deriving DecidableEq

/-- The nested `State` struct of Go's `Light`: the observed attributes
of the remote device. -/
structure LightAttrs where
  on' : Bool
  bri : Int
  hue : Int
  saturation : Int
  effect : String
  xy : Rat × Rat
  ct : Int
  alert : String
  colormode : String
  reachable : Bool
deriving DecidableEq

/-- Go's `Light` struct: the entity mirror.  `bridge` is the
`*Bridge` pointer (`none` = `nil`). -/
structure Light where
  state : LightAttrs
  type : String
  name : String
  modelID : String
  manufacturerName : String
  uniqueID : String
  swVersion : String
  index : Int
  bridge : Option Bridge
deriving DecidableEq

/-- The zero value of `LightAttrs` (Go `Light{}.State`). -/
def zeroAttrs : LightAttrs :=
  { on' := false, bri := 0, hue := 0, saturation := 0, effect := ""
    xy := (0, 0), ct := 0, alert := "", colormode := "", reachable := false }

/-- The zero value `Light{}` returned by Go on the error paths. -/
def zeroLight : Light :=
  { state := zeroAttrs, type := "", name := "", modelID := ""
    manufacturerName := "", uniqueID := "", swVersion := ""
    index := 0, bridge := none }

/-- Go's `LightState` struct: the sparse state patch sent by
`SetState`.  Field types follow the newer revision (`uint8`/`uint16`
absolutes, `int16`/`int32` increments), widened to `Nat`/`Int`. -/
structure LightState where
  on' : Bool
  bri : Nat
  hue : Nat
  sat : Nat
  xy : Option (Rat × Rat)
  ct : Nat
  effect : String
  alert : String
  transitionTime : String
  satInc : Int
  hueInc : Int
  briInc : Int
  ctInc : Int
  xyInc : Option (Rat × Rat)
  name : String
deriving DecidableEq

/-- The zero value `LightState{}`; Go composite literals such as
`LightState{On: true, Bri: 200}` are structure updates of it. -/
def zeroLightState : LightState :=
  { on' := false, bri := 0, hue := 0, sat := 0, xy := none, ct := 0
    effect := "", alert := "", transitionTime := ""
    satInc := 0, hueInc := 0, briInc := 0, ctInc := 0, xyInc := none
    name := "" }

/-- `blinkMax := LightState{On: true, Bri: uint8(200)}` from `Light.Blink`. -/
def blinkMax : LightState := { zeroLightState with on' := true, bri := 200 }

/-- `blinkMin := LightState{On: true, Bri: uint8(50)}` from `Light.Blink`. -/
def blinkMin : LightState := { zeroLightState with on' := true, bri := 50 }

/-- Go's `uint8(v)` conversion of an `int`: the low byte, i.e. `v mod 256`. -/
def toUint8 (v : Int) : Nat := (v % 256).toNat

/-- `fmt.Sprintf("/api/%s/lights/%d", bridge.Username, index)`. -/
def lightURI (b : Bridge) (i : Int) : String :=
  "/api/" ++ b.username ++ "/lights/" ++ toString i

/-- `fmt.Sprintf("/api/%s/lights/%d/state", light.Bridge.Username, light.Index)`. -/
def stateURI (b : Bridge) (i : Int) : String :=
  "/api/" ++ b.username ++ "/lights/" ++ toString i ++ "/state"

/-- One step of Go's `strings.Contains(s, sub)`: does `sub` occur as a
contiguous run in `s`, checked at every suffix of `s`. -/
def containsAux (sub : List Char) : List Char → Bool
  | [] => sub.isPrefixOf []
  | c :: rest => sub.isPrefixOf (c :: rest) || containsAux sub rest

/-- Go's `strings.Contains(s, sub)`. -/
def goStringsContains (s sub : String) : Bool :=
  containsAux sub.data s.data

/-- The fixed unavailability sentinel checked by `GetLightByIndex`. -/
def notAvailableMarker : String := "not available"

/-- The transport collaborator plus the `json.Unmarshal` oracle.
`putF` returns the Go error (`Bridge.Put`'s body and response are
discarded by the embedded code); `getF` returns the raw response body
or a transport error; both always return the successor world state. -/
structure Env (σ : Type) where
  putF : σ → String → LightState → Option Err × σ
  getF : σ → String → Except Err String × σ
  decodeF : String → Option Light

variable {σ : Type}

/-- `GetLightByIndex(bridge, index)`: GET the per-index resource,
fail on transport error or on the `"not available"` body sentinel,
otherwise decode the body (decode failure is only logged via `trace`
and swallowed, leaving the zero-initialized struct) and stamp
`Index`/`Bridge`. -/
def getLightByIndex (E : Env σ) (s : σ) (bridge : Bridge) (index : Int) :
    Light × Option Err × σ :=
  match E.getF s (lightURI bridge index) with
  | (.error e, s') => (zeroLight, some e, s')
  | (.ok body, s') =>
    if goStringsContains body notAvailableMarker then
      (zeroLight, some "Index Error", s')
    else
      let light := (E.decodeF body).getD zeroLight
      ({ light with index := index, bridge := some bridge }, none, s')

/-- `Light.SetState(newState)`: PUT the patch to the state endpoint;
on PUT error return it with the mirror untouched; on success the Go
code executes `*light, err = GetLightByIndex(...)`, so the mirror is
overwritten with the fetch result (the zero `Light{}` if the fetch
fails) and the fetch error is returned.  Go would dereference a nil
`light.Bridge`; the `none` branch records that panic and is exercised
by no claim. -/
def setState (E : Env σ) (s : σ) (light : Light) (newState : LightState) :
    Light × Option Err × σ :=
  match light.bridge with
  | none => (zeroLight, some "panic: nil Bridge dereference", s)
  | some b =>
    match E.putF s (stateURI b light.index) newState with
    | (some e, s₁) => (light, some e, s₁)
    | (none, s₁) => getLightByIndex E s₁ b light.index

/-- The loop of `GetAllLights`, as structural recursion on the number
of remaining indices: probe `i`, break on the first fetch error,
otherwise append and continue with `i+1`. -/
def scanFrom (E : Env σ) (b : Bridge) : σ → Int → Nat → List Light × σ
  | s, _, 0 => ([], s)
  | s, i, n + 1 =>
    match getLightByIndex E s b i with
    | (_, some _, s') => ([], s')
    | (l, none, s') =>
      let (ls, s'') := scanFrom E b s' (i + 1) n
      (l :: ls, s'')

/-- `GetAllLights(bridge)`: `for index := 1; index < 101; index++`,
breaking at the first failed fetch; always returns a `nil` error. -/
def getAllLights (E : Env σ) (s : σ) (b : Bridge) :
    List Light × Option Err × σ :=
  let (ls, s') := scanFrom E b s 1 100
  (ls, none, s')

/-- `GetLightByName(bridge, name)`: scan all (the scan error is
discarded with `_`), then return the first light whose `Name` equals
`name` exactly, else the `"Light not found."` error. -/
def getLightByName (E : Env σ) (s : σ) (b : Bridge) (name : String) :
    Light × Option Err × σ :=
  let (lights, _, s') := getAllLights E s b
  match lights.find? (fun l => l.name == name) with
  | some l => (l, none, s')
  | none => (zeroLight, some "Light not found.", s')

/-- The `for i := 0; i <= seconds*2; i++` body of `Light.Blink`:
even `i` sends `blinkMax`, odd `i` sends `blinkMin`; any `SetState`
error aborts the loop and is returned.  `time.Sleep(time.Second/2)`
has no modelled effect. -/
def blinkLoop (E : Env σ) : σ → Light → Nat → Nat → Light × Option Err × σ
  | s, light, _, 0 => (light, none, s)
  | s, light, i, n + 1 =>
    match setState E s light (if i % 2 = 0 then blinkMax else blinkMin) with
    | (l', some e, s') => (l', some e, s')
    | (l', none, s') => blinkLoop E s' l' (i + 1) n

/-- `Light.Blink(seconds)`: capture the mirror's power and brightness,
send `blinkMax` once, run the oscillation loop (`2*seconds + 1`
iterations when `seconds ≥ 0`, none otherwise, since Go iterates `i`
over `0 ≤ i ≤ 2*seconds`), then — if the observed power or brightness
differs from the captured values — send one corrective patch whose
error Go discards, and return `nil`. -/
def blink (E : Env σ) (s : σ) (light : Light) (seconds : Int) :
    Light × Option Err × σ :=
  let originalPosition := light.state.on'
  let originalBrightness := light.state.bri
  match setState E s light blinkMax with
  | (l₁, some e, s₁) => (l₁, some e, s₁)
  | (l₁, none, s₁) =>
    match blinkLoop E s₁ l₁ 0 (2 * seconds + 1).toNat with
    | (l₂, some e, s₂) => (l₂, some e, s₂)
    | (l₂, none, s₂) =>
      if l₂.state.bri ≠ originalBrightness ∨ l₂.state.on' ≠ originalPosition then
        let (l₃, _, s₃) := setState E s₂ l₂
          { zeroLightState with on' := originalPosition
                                bri := toUint8 originalBrightness }
        (l₃, none, s₃)
      else
        (l₂, none, s₂)

/-! ## An injective wire codec for `Light`

The faithful-server environment below must hand `GetLightByIndex` a
response body (a `String`) from which the decode oracle recovers the
device state.  We use a tiny self-delimiting code over the six-letter
alphabet `I ; + - T F`; since none of those characters occurs in
`"not available"`, encoded bodies can never trip the sentinel check. -/

/-- A natural number as a unary run of `'I'` closed by `';'`. -/
def encNat (n : Nat) : List Char := List.replicate n 'I' ++ [';']

/-- Inverse of `encNat`; returns the value and the unconsumed rest. -/
def decNat : List Char → Option (Nat × List Char)
  | 'I' :: rest =>
    match decNat rest with
    | some (n, r) => some (n + 1, r)
    | none => none
  | ';' :: rest => some (0, rest)
  | _ => none

/-- An integer as a sign character followed by `encNat` of its magnitude. -/
def encInt (i : Int) : List Char :=
  if i < 0 then '-' :: encNat (-i).toNat else '+' :: encNat i.toNat

/-- Inverse of `encInt`. -/
def decInt : List Char → Option (Int × List Char)
  | '+' :: rest =>
    match decNat rest with
    | some (n, r) => some ((n : Int), r)
    | none => none
  | '-' :: rest =>
    match decNat rest with
    | some (n, r) => some (-(n : Int), r)
    | none => none
  | _ => none

/-- A boolean as a single `'T'` or `'F'`. -/
def encBool (b : Bool) : List Char := [if b then 'T' else 'F']

/-- Inverse of `encBool`. -/
def decBool : List Char → Option (Bool × List Char)
  | 'T' :: rest => some (true, rest)
  | 'F' :: rest => some (false, rest)
  | _ => none

/-- A character as `encNat` of its code point. -/
def encChar (c : Char) : List Char := encNat c.toNat

/-- A string as its length followed by its characters' code points. -/
def encStr (s : String) : List Char :=
  encNat s.length ++ s.data.flatMap encChar

/-- Read `n` encoded characters. -/
def decCharsN : Nat → List Char → Option (List Char × List Char)
  | 0, l => some ([], l)
  | n + 1, l =>
    match decNat l with
    | some (c, r) =>
      match decCharsN n r with
      | some (cs, rest) => some (Char.ofNat c :: cs, rest)
      | none => none
    | none => none

/-- Inverse of `encStr`. -/
def decStr (l : List Char) : Option (String × List Char) :=
  match decNat l with
  | some (n, r) =>
    match decCharsN n r with
    | some (cs, rest) => some (⟨cs⟩, rest)
    | none => none
  | none => none

/-- A rational as numerator and denominator. -/
def encRat (q : Rat) : List Char := encInt q.num ++ encNat q.den

/-- Inverse of `encRat`. -/
def decRat (l : List Char) : Option (Rat × List Char) :=
  match decInt l with
  | some (n, r) =>
    match decNat r with
    | some (d, rest) => some (mkRat n d, rest)
    | none => none
  | none => none

/-- Field-by-field encoding of the observed attributes. -/
def encAttrs (a : LightAttrs) : List Char :=
  encBool a.on' ++ encInt a.bri ++ encInt a.hue ++ encInt a.saturation ++
  encStr a.effect ++ encRat a.xy.1 ++ encRat a.xy.2 ++ encInt a.ct ++
  encStr a.alert ++ encStr a.colormode ++ encBool a.reachable

/-- Inverse of `encAttrs`. -/
def decAttrs (l : List Char) : Option (LightAttrs × List Char) := do
  let (on', l) ← decBool l
  let (bri, l) ← decInt l
  let (hue, l) ← decInt l
  let (sat, l) ← decInt l
  let (effect, l) ← decStr l
  let (x, l) ← decRat l
  let (y, l) ← decRat l
  let (ct, l) ← decInt l
  let (alert, l) ← decStr l
  let (colormode, l) ← decStr l
  let (reachable, l) ← decBool l
  some (⟨on', bri, hue, sat, effect, (x, y), ct, alert, colormode, reachable⟩, l)

/-- An optional bridge pointer. -/
def encOptBridge : Option Bridge → List Char
  | none => ['F']
  | some b => 'T' :: encStr b.username

/-- Inverse of `encOptBridge`. -/
def decOptBridge : List Char → Option (Option Bridge × List Char)
  | 'F' :: rest => some (none, rest)
  | 'T' :: rest =>
    match decStr rest with
    | some (u, r) => some (some ⟨u⟩, r)
    | none => none
  | _ => none

/-- Field-by-field encoding of a whole `Light` value. -/
def encLightChars (l : Light) : List Char :=
  encAttrs l.state ++ encStr l.type ++ encStr l.name ++ encStr l.modelID ++
  encStr l.manufacturerName ++ encStr l.uniqueID ++ encStr l.swVersion ++
  encInt l.index ++ encOptBridge l.bridge

/-- Inverse of `encLightChars`. -/
def decLightChars (l : List Char) : Option (Light × List Char) := do
  let (st, l) ← decAttrs l
  let (ty, l) ← decStr l
  let (nm, l) ← decStr l
  let (mo, l) ← decStr l
  let (ma, l) ← decStr l
  let (un, l) ← decStr l
  let (sw, l) ← decStr l
  let (ix, l) ← decInt l
  let (br, l) ← decOptBridge l
  some (⟨st, ty, nm, mo, ma, un, sw, ix, br⟩, l)

/-- The wire body for a device state. -/
def encodeLight (l : Light) : String := ⟨encLightChars l⟩

/-- The decode oracle used by the faithful environments: the exact
inverse of `encodeLight`, rejecting trailing garbage. -/
def decodeLight (s : String) : Option Light :=
  match decLightChars s.data with
  | some (l, []) => some l
  | _ => none

/-! ## Environments

The Bridge transport and the remote device are collaborators outside
`src/` (`bridge.go` and the Hue bridge itself), so their behavior is
modelled from the spec where a claim needs it. -/

/-- Modelled from the spec: how the remote device applies a state
patch (the `…/lights/{index}/state` PUT of §6).  The power flag is
always sent; every other absolute field is at its zero value treated
as unset and omitted, so the device keeps its previous value (§3).
The increment fields and `name` have no combined semantics defined by
the spec and are sent by none of the modelled call sites; they are not
applied. -/
def applyLightState (d : LightAttrs) (p : LightState) : LightAttrs :=
  { on' := p.on'
    bri := if p.bri ≠ 0 then (p.bri : Int) else d.bri
    hue := if p.hue ≠ 0 then (p.hue : Int) else d.hue
    saturation := if p.sat ≠ 0 then (p.sat : Int) else d.saturation
    effect := if p.effect ≠ "" then p.effect else d.effect
    xy := match p.xy with | some v => v | none => d.xy
    ct := if p.ct ≠ 0 then (p.ct : Int) else d.ct
    alert := if p.alert ≠ "" then p.alert else d.alert
    colormode := d.colormode
    reachable := d.reachable }

/-- Modelled from the spec: a faithful single-device bridge for
username `u` with one light at index `di`.  The world state is the
device's current `Light` value; a PUT on the state endpoint applies
the patch, a GET on the light resource returns the encoded device,
any other resource answers with the `"not available"` sentinel body. -/
def hueEnv (u : String) (di : Int) : Env Light where
  putF := fun dev uri p =>
    if uri = stateURI ⟨u⟩ di then
      (none, { dev with state := applyLightState dev.state p })
    else (some "resource not available", dev)
  getF := fun dev uri =>
    if uri = lightURI ⟨u⟩ di then (.ok (encodeLight dev), dev)
    else (.ok "resource not available", dev)
  decodeF := decodeLight

/-- Modelled from the spec: a read-only bridge for username `u`
serving a fixed table of lights keyed by index; indices outside the
table answer with the `"not available"` sentinel body. -/
def tableEnv (u : String) (entries : List (Int × Light)) : Env Unit where
  putF := fun s _ _ => (some "put not supported", s)
  getF := fun s uri =>
    match entries.find? (fun e => lightURI ⟨u⟩ e.1 == uri) with
    | some e => (.ok (encodeLight e.2), s)
    | none => (.ok "resource not available", s)
  decodeF := decodeLight

/-- An observing transport that accepts every PUT, recording the
patches in order, and answers every GET with a fixed body that decodes
to `fixed`.  Used to read off the exact patch sequence a composition
such as `Blink` sends. -/
def logEnv (fixed : Light) : Env (List LightState) where
  putF := fun s _ p => (none, s ++ [p])
  getF := fun s _ => (.ok "B", s)
  decodeF := fun _ => some fixed

/-- Wrap an environment so that every transport call additionally
records the requested URI. -/
def instr (E : Env σ) : Env (σ × List String) where
  putF := fun w uri p =>
    match E.putF w.1 uri p with
    | (e, s') => (e, (s', w.2 ++ [uri]))
  getF := fun w uri =>
    match E.getF w.1 uri with
    | (r, s') => (r, (s', w.2 ++ [uri]))
  decodeF := E.decodeF

/-- Spec-side description of the oscillation phase: `n` alternating
patches, maximum at even loop counters, minimum at odd ones. -/
def oscSteps : Nat → Nat → List LightState
  | _, 0 => []
  | i, n + 1 => (if i % 2 = 0 then blinkMax else blinkMin) :: oscSteps (i + 1) n

/-- Spec-side description of the patch sequence `Blink` emits before
its restore phase: one initial maximum patch, then the loop's
alternating maximum/minimum patches starting at counter `0`
(`2*seconds + 1` of them for nonnegative `seconds`). -/
def blinkTraceSpec (seconds : Int) : List LightState :=
  blinkMax :: oscSteps 0 (2 * seconds + 1).toNat

/-! ## Concrete fixtures for witnesses and counterexamples -/

/-- A concrete bridge. -/
def bridgeU : Bridge := ⟨"u"⟩

/-- A concrete mirror attached to `bridgeU` at index 1 with all-zero
attributes (in particular brightness 0). -/
def mirror0 : Light := { zeroLight with index := 1, bridge := some bridgeU }

/-- A concrete mirror with brightness 7, power off. -/
def mirror7 : Light :=
  { zeroLight with
      state := { zeroAttrs with bri := 7, on' := false }
      index := 1, bridge := some bridgeU }

/-- Fixture light named `"Lamp"`. -/
def lampLight : Light := { zeroLight with name := "Lamp" }

/-- Fixture light named `"Desk"`. -/
def deskLight : Light := { zeroLight with name := "Desk" }

/-- The `{1 ↦ Lamp, 2 ↦ Desk}` discovery world. -/
def nameTable : List (Int × Light) := [(1, lampLight), (2, deskLight)]

/-- A transport whose GET and PUT both fail. -/
def failEnv : Env Unit where
  putF := fun s _ _ => (some "put transport down", s)
  getF := fun s _ => (.error "get transport down", s)
  decodeF := fun _ => none

/-- A transport whose PUT succeeds and whose GET fails: the
`SetState` write lands but the confirmatory fetch cannot. -/
def putOkGetFailEnv : Env Unit where
  putF := fun s _ _ => (none, s)
  getF := fun s _ => (.error "get transport down", s)
  decodeF := fun _ => none

/-- A transport whose GET returns a sentinel-free body that the decode
oracle rejects. -/
def garbageEnv : Env Unit where
  putF := fun s _ _ => (none, s)
  getF := fun s _ => (.ok "junk body", s)
  decodeF := fun _ => none

/-! ## Codec correctness -/

theorem decNat_enc (n : Nat) (r : List Char) :
    decNat (encNat n ++ r) = some (n, r) := by
  induction n with
  | zero => rfl
  | succ k ih =>
    have h : encNat (k + 1) ++ r = 'I' :: (encNat k ++ r) := by
      simp [encNat, List.replicate_succ]
    rw [h, decNat, ih]

theorem decInt_enc (i : Int) (r : List Char) :
    decInt (encInt i ++ r) = some (i, r) := by
  by_cases h : i < 0
  · have hneg : ((-i).toNat : Int) = -i := Int.toNat_of_nonneg (by omega)
    simp [encInt, h, decInt, decNat_enc, hneg]
  · have hpos : (i.toNat : Int) = i := Int.toNat_of_nonneg (by omega)
    simp [encInt, h, decInt, decNat_enc, hpos]

theorem decBool_enc (b : Bool) (r : List Char) :
    decBool (encBool b ++ r) = some (b, r) := by
  cases b <;> rfl

theorem decCharsN_enc (cs : List Char) (r : List Char) :
    decCharsN cs.length (cs.flatMap encChar ++ r) = some (cs, r) := by
  induction cs with
  | nil => rfl
  | cons c cs ih =>
    simp only [List.flatMap_cons, List.length_cons, List.append_assoc]
    rw [decCharsN, encChar, decNat_enc]
    simp only [ih, Char.ofNat_toNat]

theorem decStr_enc (s : String) (r : List Char) :
    decStr (encStr s ++ r) = some (s, r) := by
  have hlen : s.length = s.data.length := rfl
  simp only [encStr, List.append_assoc, decStr, decNat_enc, hlen, decCharsN_enc]

theorem decRat_enc (q : Rat) (r : List Char) :
    decRat (encRat q ++ r) = some (q, r) := by
  simp only [encRat, List.append_assoc, decRat, decInt_enc, decNat_enc,
    Rat.mkRat_self]

theorem decAttrs_enc (a : LightAttrs) (r : List Char) :
    decAttrs (encAttrs a ++ r) = some (a, r) := by
  simp only [encAttrs, List.append_assoc, decAttrs, decBool_enc, decInt_enc,
    decStr_enc, decRat_enc, Option.bind_eq_bind, Option.some_bind]

theorem decOptBridge_enc (b : Option Bridge) (r : List Char) :
    decOptBridge (encOptBridge b ++ r) = some (b, r) := by
  cases b with
  | none => rfl
  | some b => simp only [encOptBridge, List.cons_append, decOptBridge, decStr_enc]

theorem decLightChars_enc (l : Light) (r : List Char) :
    decLightChars (encLightChars l ++ r) = some (l, r) := by
  simp only [encLightChars, List.append_assoc, decLightChars, decAttrs_enc,
    decStr_enc, decInt_enc, decOptBridge_enc, Option.bind_eq_bind,
    Option.some_bind]

theorem decodeLight_enc (l : Light) : decodeLight (encodeLight l) = some l := by
  have h : (encodeLight l).data = encLightChars l ++ [] := by
    simp [encodeLight]
  rw [decodeLight, h, decLightChars_enc]

/-! ## Encoded bodies never contain the sentinel -/

/-- The codec's output alphabet. -/
def okChars : List Char := ['I', ';', '+', '-', 'T', 'F']

theorem mem_encNat {c : Char} {n : Nat} (h : c ∈ encNat n) : c ∈ okChars := by
  simp only [encNat, List.mem_append, List.mem_replicate, List.mem_singleton] at h
  rcases h with ⟨-, rfl⟩ | rfl <;> simp [okChars]

theorem mem_encInt {c : Char} {i : Int} (h : c ∈ encInt i) : c ∈ okChars := by
  unfold encInt at h
  split at h
  · rcases List.mem_cons.mp h with rfl | h
    · simp [okChars]
    · exact mem_encNat h
  · rcases List.mem_cons.mp h with rfl | h
    · simp [okChars]
    · exact mem_encNat h

theorem mem_encBool {c : Char} {b : Bool} (h : c ∈ encBool b) : c ∈ okChars := by
  cases b <;> simp only [encBool, List.mem_singleton] at h <;> simp [h, okChars]

theorem mem_encStr {c : Char} {s : String} (h : c ∈ encStr s) : c ∈ okChars := by
  simp only [encStr, List.mem_append, List.mem_flatMap] at h
  rcases h with h | ⟨a, -, h⟩
  · exact mem_encNat h
  · exact mem_encNat h

theorem mem_encRat {c : Char} {q : Rat} (h : c ∈ encRat q) : c ∈ okChars := by
  rcases List.mem_append.mp h with h | h
  · exact mem_encInt h
  · exact mem_encNat h

theorem mem_encAttrs {c : Char} {a : LightAttrs} (h : c ∈ encAttrs a) :
    c ∈ okChars := by
  simp only [encAttrs, List.append_assoc, List.mem_append] at h
  rcases h with h | h | h | h | h | h | h | h | h | h | h
  · exact mem_encBool h
  · exact mem_encInt h
  · exact mem_encInt h
  · exact mem_encInt h
  · exact mem_encStr h
  · exact mem_encRat h
  · exact mem_encRat h
  · exact mem_encInt h
  · exact mem_encStr h
  · exact mem_encStr h
  · exact mem_encBool h

theorem mem_encOptBridge {c : Char} {b : Option Bridge}
    (h : c ∈ encOptBridge b) : c ∈ okChars := by
  cases b with
  | none => simp only [encOptBridge, List.mem_singleton] at h; simp [h, okChars]
  | some b =>
    rcases List.mem_cons.mp h with rfl | h
    · simp [okChars]
    · exact mem_encStr h

theorem mem_encLightChars {c : Char} {l : Light} (h : c ∈ encLightChars l) :
    c ∈ okChars := by
  simp only [encLightChars, List.append_assoc, List.mem_append] at h
  rcases h with h | h | h | h | h | h | h | h | h
  · exact mem_encAttrs h
  · exact mem_encStr h
  · exact mem_encStr h
  · exact mem_encStr h
  · exact mem_encStr h
  · exact mem_encStr h
  · exact mem_encStr h
  · exact mem_encInt h
  · exact mem_encOptBridge h

theorem containsAux_marker_false {l : List Char} (h : 'n' ∉ l) :
    containsAux notAvailableMarker.data l = false := by
  induction l with
  | nil => rfl
  | cons c rest ih =>
    have hc : ('n' == c) = false :=
      beq_eq_false_iff_ne.mpr fun he => by
        subst he; exact h (List.mem_cons_self _ _)
    have hm : notAvailableMarker.data = 'n' :: "ot available".data := rfl
    rw [containsAux, hm, List.isPrefixOf, hc]
    simp only [Bool.false_and, Bool.false_or]
    rw [← hm]
    exact ih fun hr => h (List.mem_cons_of_mem c hr)

theorem encodeLight_no_marker (l : Light) :
    goStringsContains (encodeLight l) notAvailableMarker = false := by
  apply containsAux_marker_false
  intro hmem
  have : 'n' ∈ okChars := mem_encLightChars (l := l) hmem
  simp [okChars] at this

/-! ## Shape lemmas for the embedded operations -/

theorem light_eta (m : Light) (b : Bridge) (hb : m.bridge = some b) :
    ({ m with index := m.index, bridge := some b } : Light) = m := by
  cases m
  simp_all

theorem getLightByIndex_err_zero {E : Env σ} {s : σ} {b : Bridge} {i : Int}
    {l : Light} {e : Err} {s' : σ}
    (h : getLightByIndex E s b i = (l, some e, s')) : l = zeroLight := by
  unfold getLightByIndex at h
  rcases hg : E.getF s (lightURI b i) with ⟨r, s₀⟩
  rw [hg] at h
  rcases r with e₀ | body
  · simp only [Prod.mk.injEq] at h
    exact h.1.symm
  · dsimp only at h
    by_cases hm : goStringsContains body notAvailableMarker
    · rw [if_pos hm] at h
      simp only [Prod.mk.injEq] at h
      exact h.1.symm
    · rw [if_neg hm] at h
      simp only [Prod.mk.injEq] at h
      exact absurd h.2.1 (by simp)

theorem getLightByIndex_ok_stamp {E : Env σ} {s : σ} {b : Bridge} {i : Int}
    {l : Light} {s' : σ}
    (h : getLightByIndex E s b i = (l, none, s')) :
    l.index = i ∧ l.bridge = some b := by
  unfold getLightByIndex at h
  rcases hg : E.getF s (lightURI b i) with ⟨r, s₀⟩
  rw [hg] at h
  rcases r with e₀ | body
  · simp only [Prod.mk.injEq] at h
    exact absurd h.2.1.symm (by simp)
  · dsimp only at h
    by_cases hm : goStringsContains body notAvailableMarker
    · rw [if_pos hm] at h
      simp only [Prod.mk.injEq] at h
      exact absurd h.2.1.symm (by simp)
    · rw [if_neg hm] at h
      simp only [Prod.mk.injEq] at h
      rw [← h.1]
      exact ⟨rfl, rfl⟩

set_option maxHeartbeats 400000 in
theorem getLightByIndex_hueEnv (u : String) (di : Int) (dev : Light) :
    getLightByIndex (hueEnv u di) dev ⟨u⟩ di =
      ({ dev with index := di, bridge := some ⟨u⟩ }, none, dev) := by
  have hdf : (hueEnv u di).decodeF = decodeLight := rfl
  unfold getLightByIndex
  have hg : (hueEnv u di).getF dev (lightURI ⟨u⟩ di) =
      (.ok (encodeLight dev), dev) := by
    simp [hueEnv]
  rw [hg]
  dsimp only
  rw [if_neg (by simp [encodeLight_no_marker])]
  rw [hdf, decodeLight_enc dev]
  rfl

theorem setState_hueEnv (u : String) (di : Int) (dev m : Light)
    (p : LightState) (hb : m.bridge = some ⟨u⟩) (hi : m.index = di) :
    setState (hueEnv u di) dev m p =
      ({ dev with state := applyLightState dev.state p, index := di
                  bridge := some ⟨u⟩ },
       none,
       { dev with state := applyLightState dev.state p }) := by
  unfold setState
  rw [hb]
  dsimp only
  rw [hi]
  have hput : (hueEnv u di).putF dev (stateURI ⟨u⟩ di) p =
      (none, { dev with state := applyLightState dev.state p }) := by
    simp [hueEnv]
  rw [hput]
  dsimp only
  rw [getLightByIndex_hueEnv]

theorem setState_logEnv (fixed : Light) (s : List LightState) (m : Light)
    (b : Bridge) (p : LightState) (hb : m.bridge = some b) :
    setState (logEnv fixed) s m p =
      ({ fixed with index := m.index, bridge := some b }, none, s ++ [p]) := by
  have hB : goStringsContains "B" notAvailableMarker = false := by decide
  simp only [setState, hb, logEnv, getLightByIndex, hB, Bool.false_eq_true,
    if_false, Option.getD_some]

theorem blinkLoop_logEnv (m : Light) (b : Bridge) (hb : m.bridge = some b) :
    ∀ (n i : Nat) (s : List LightState),
      blinkLoop (logEnv m) s m i n = (m, none, s ++ oscSteps i n) := by
  intro n
  induction n with
  | zero => intro i s; simp [blinkLoop, oscSteps]
  | succ k ih =>
    intro i s
    rw [blinkLoop, setState_logEnv m s m b _ hb, light_eta m b hb]
    dsimp only
    rw [ih (i + 1) (s ++ [if i % 2 = 0 then blinkMax else blinkMin]), oscSteps]
    simp [List.append_assoc]

theorem blink_logEnv (m : Light) (b : Bridge) (hb : m.bridge = some b)
    (seconds : Int) :
    blink (logEnv m) [] m seconds = (m, none, blinkTraceSpec seconds) := by
  rw [blink, setState_logEnv m [] m b _ hb, light_eta m b hb]
  dsimp only
  rw [blinkLoop_logEnv m b hb (2 * seconds + 1).toNat 0 ([] ++ [blinkMax])]
  simp [blinkTraceSpec]

theorem oscSteps_length : ∀ (n i : Nat), (oscSteps i n).length = n := by
  intro n
  induction n with
  | zero => intro i; rfl
  | succ k ih => intro i; rw [oscSteps]; simp [ih]

theorem blinkLoop_hueEnv (u : String) (di : Int) :
    ∀ (n i : Nat) (dev : Light),
      ∃ dev' : Light,
        blinkLoop (hueEnv u di) dev
            { dev with index := di, bridge := some ⟨u⟩ } i n =
          ({ dev' with index := di, bridge := some ⟨u⟩ }, none, dev') ∧
        (n = 0 → dev' = dev) ∧
        (n ≠ 0 → dev'.state.on' = true ∧
          dev'.state.bri = if (i + n - 1) % 2 = 0 then 200 else 50) := by
  intro n
  induction n with
  | zero =>
    intro i dev
    exact ⟨dev, rfl, fun _ => rfl, fun h => absurd rfl h⟩
  | succ k ih =>
    intro i dev
    obtain ⟨dev', h1, h0, hpos⟩ := ih (i + 1)
      { dev with state :=
          applyLightState dev.state (if i % 2 = 0 then blinkMax else blinkMin) }
    refine ⟨dev', ?_, fun h => absurd h (Nat.succ_ne_zero k), fun _ => ?_⟩
    · rw [blinkLoop,
        setState_hueEnv u di dev { dev with index := di, bridge := some ⟨u⟩ }
          (if i % 2 = 0 then blinkMax else blinkMin) rfl rfl]
      dsimp only
      exact h1
    · rcases Nat.eq_zero_or_pos k with hk | hk
      · subst hk
        rw [h0 rfl]
        constructor
        · by_cases hc : i % 2 = 0 <;>
            simp [hc, applyLightState, blinkMax, blinkMin, zeroLightState]
        · by_cases hc : i % 2 = 0 <;>
            simp [hc, applyLightState, blinkMax, blinkMin, zeroLightState]
      · obtain ⟨hon, hbri⟩ := hpos (by omega)
        refine ⟨hon, ?_⟩
        rw [hbri]
        have hidx : i + 1 + k - 1 = i + (k + 1) - 1 := by omega
        rw [hidx]

set_option maxHeartbeats 800000 in
/-- C6 (amended): against a faithful single-device bridge, once
`Blink` returns (it always returns a `nil` error there), the mirror's
power flag equals its pre-call value, and — provided the pre-call
brightness lies in `1..255`, so that Go's `uint8` conversion neither
truncates it nor turns it into the zero value that `omitempty` drops
from the corrective patch — the brightness does too. -/
theorem blink_restores (u : String) (di : Int) (dev m : Light) (N : Int)
    (hb : m.bridge = some ⟨u⟩) (hi : m.index = di)
    (hlo : 1 ≤ m.state.bri) (hhi : m.state.bri ≤ 255) :
    (blink (hueEnv u di) dev m N).2.1 = none ∧
    (blink (hueEnv u di) dev m N).1.state.on' = m.state.on' ∧
    (blink (hueEnv u di) dev m N).1.state.bri = m.state.bri := by
  obtain ⟨devL, hL, hL0, hLpos⟩ :=
    blinkLoop_hueEnv u di (2 * N + 1).toNat 0
      { dev with state := applyLightState dev.state blinkMax }
  dsimp only at hL
  have hdevL : devL.state.on' = true ∧ devL.state.bri = 200 := by
    rcases Nat.eq_zero_or_pos (2 * N + 1).toNat with hn | hn
    · rw [hL0 hn]
      constructor <;> simp [applyLightState, blinkMax, zeroLightState]
    · obtain ⟨hon, hbri⟩ := hLpos (by omega)
      refine ⟨hon, ?_⟩
      rw [hbri, if_pos (by omega)]
  simp only [blink]
  rw [setState_hueEnv u di dev m blinkMax hb hi]
  dsimp only
  rw [hL]
  dsimp only
  rw [hdevL.1, hdevL.2]
  have hny : toUint8 m.state.bri ≠ 0 := by unfold toUint8; omega
  have hcast : ((toUint8 m.state.bri : Nat) : Int) = m.state.bri := by
    unfold toUint8; omega
  by_cases hc : (200 : Int) ≠ m.state.bri ∨ true ≠ m.state.on'
  · rw [if_pos hc]
    rw [setState_hueEnv u di devL
      { devL with index := di, bridge := some ⟨u⟩ } _ rfl rfl]
    dsimp only
    refine ⟨rfl, ?_, ?_⟩
    · simp [applyLightState]
    · simp [applyLightState, hny, hcast]
  · rw [if_neg hc]
    push_neg at hc
    refine ⟨rfl, ?_, ?_⟩
    · dsimp only
      rw [hdevL.1]
      exact hc.2
    · dsimp only
      rw [hdevL.2]
      exact hc.1

theorem scanFrom_stop (E : Env σ) (b : Bridge) (s : σ) (i : Int) (n : Nat)
    {l : Light} {e : Err} {s' : σ}
    (h : getLightByIndex E s b i = (l, some e, s')) :
    scanFrom E b s i (n + 1) = ([], s') := by
  rw [scanFrom, h]

theorem scanFrom_step (E : Env σ) (b : Bridge) (s : σ) (i : Int) (n : Nat)
    {l : Light} {s' : σ}
    (h : getLightByIndex E s b i = (l, none, s')) :
    scanFrom E b s i (n + 1) =
      (l :: (scanFrom E b s' (i + 1) n).1, (scanFrom E b s' (i + 1) n).2) := by
  rw [scanFrom, h]

theorem lightURI_ne (u : String) (i j : Int) (h : toString i ≠ toString j) :
    lightURI ⟨u⟩ i ≠ lightURI ⟨u⟩ j := by
  intro heq
  apply h
  have h1 := congrArg String.data heq
  simp only [lightURI, String.data_append, List.append_assoc] at h1
  exact String.ext
    (List.append_cancel_left (List.append_cancel_left
      (List.append_cancel_left h1)))

theorem tableFetch_hit (u : String) (es : List (Int × Light)) (i : Int)
    (k : Int) (L : Light)
    (h : es.find? (fun e => lightURI ⟨u⟩ e.1 == lightURI ⟨u⟩ i) = some (k, L)) :
    getLightByIndex (tableEnv u es) () ⟨u⟩ i =
      ({ L with index := i, bridge := some ⟨u⟩ }, none, ()) := by
  have hdf : (tableEnv u es).decodeF = decodeLight := rfl
  unfold getLightByIndex
  have hg : (tableEnv u es).getF () (lightURI ⟨u⟩ i) =
      (.ok (encodeLight L), ()) := by
    simp only [tableEnv]
    rw [h]
  rw [hg]
  dsimp only
  rw [if_neg (by simp [encodeLight_no_marker])]
  rw [hdf, decodeLight_enc L]
  rfl

theorem tableFetch_miss (u : String) (es : List (Int × Light)) (i : Int)
    (h : es.find? (fun e => lightURI ⟨u⟩ e.1 == lightURI ⟨u⟩ i) = none) :
    getLightByIndex (tableEnv u es) () ⟨u⟩ i =
      (zeroLight, some "Index Error", ()) := by
  unfold getLightByIndex
  have hg : (tableEnv u es).getF () (lightURI ⟨u⟩ i) =
      (.ok "resource not available", ()) := by
    simp only [tableEnv]
    rw [h]
  rw [hg]
  dsimp only
  rw [if_pos (by decide)]

theorem getLightByIndex_instr (E : Env σ) (s : σ) (log : List String)
    (b : Bridge) (i : Int) :
    ∃ (l : Light) (e : Option Err) (s' : σ),
      getLightByIndex (instr E) (s, log) b i =
        (l, e, (s', log ++ [lightURI b i])) := by
  rcases hg : E.getF s (lightURI b i) with ⟨r, s₀⟩
  have hg2 : (instr E).getF (s, log) (lightURI b i) =
      (r, (s₀, log ++ [lightURI b i])) := by
    simp only [instr, hg]
  unfold getLightByIndex
  rw [hg2]
  dsimp only
  rcases r with e₀ | body
  · exact ⟨zeroLight, some e₀, s₀, rfl⟩
  · dsimp only
    by_cases hm : goStringsContains body notAvailableMarker
    · rw [if_pos hm]
      exact ⟨zeroLight, some "Index Error", s₀, rfl⟩
    · rw [if_neg hm]
      exact ⟨_, none, s₀, rfl⟩

theorem scanFrom_instr (E : Env σ) (b : Bridge) :
    ∀ (n : Nat) (i : Int) (s : σ) (log : List String),
      ∃ new : List String,
        (scanFrom (instr E) b (s, log) i n).2.2 = log ++ new ∧
        new.length ≤ n ∧
        ∀ uri ∈ new, ∃ j : Int, i ≤ j ∧ j < i + n ∧ uri = lightURI b j := by
  intro n
  induction n with
  | zero =>
    intro i s log
    exact ⟨[], by simp [scanFrom], by simp, by simp⟩
  | succ k ih =>
    intro i s log
    obtain ⟨l, e, s', hstep⟩ := getLightByIndex_instr E s log b i
    rcases e with _ | e₀
    · rcases hsc : scanFrom (instr E) b (s', log ++ [lightURI b i]) (i + 1) k
        with ⟨ls, w⟩
      obtain ⟨new', hlog', hlen', hmem'⟩ := ih (i + 1) s' (log ++ [lightURI b i])
      rw [hsc] at hlog'
      refine ⟨[lightURI b i] ++ new', ?_, ?_, ?_⟩
      · rw [scanFrom, hstep]
        dsimp only
        rw [hsc]
        dsimp only at hlog' ⊢
        rw [hlog', List.append_assoc]
      · simp only [List.length_append, List.length_singleton]
        omega
      · intro uri hm
        rcases List.mem_append.mp hm with hm | hm
        · rw [List.mem_singleton] at hm
          exact ⟨i, le_refl i, by omega, hm⟩
        · obtain ⟨j, hj1, hj2, hj3⟩ := hmem' uri hm
          exact ⟨j, by omega, by omega, hj3⟩
    · refine ⟨[lightURI b i], ?_, by simp, ?_⟩
      · rw [scanFrom, hstep]
      · intro uri hm
        rw [List.mem_singleton] at hm
        exact ⟨i, le_refl i, by omega, hm⟩

/-! ## Claim theorems -/

/-- C4: `GetLightByIndex` fails exactly when the transport get fails
(that error is returned unchanged) or the raw body contains the fixed
`"not available"` marker substring (the `"Index Error"` kind); when
the transport succeeds and the marker is absent it succeeds, decoding
the body and returning a mirror stamped with the requested `index`
and the given Bridge reference. -/
theorem getLightByIndex_sentinel :
    (∀ (σ : Type) (E : Env σ) (s : σ) (b : Bridge) (i : Int) (e : Err) (s' : σ),
      E.getF s (lightURI b i) = (.error e, s') →
      getLightByIndex E s b i = (zeroLight, some e, s')) ∧
    (∀ (σ : Type) (E : Env σ) (s : σ) (b : Bridge) (i : Int) (body : String)
        (s' : σ),
      E.getF s (lightURI b i) = (.ok body, s') →
      goStringsContains body notAvailableMarker = true →
      getLightByIndex E s b i = (zeroLight, some "Index Error", s')) ∧
    (∀ (σ : Type) (E : Env σ) (s : σ) (b : Bridge) (i : Int) (body : String)
        (s' : σ),
      E.getF s (lightURI b i) = (.ok body, s') →
      goStringsContains body notAvailableMarker = false →
      getLightByIndex E s b i =
        ({ (E.decodeF body).getD zeroLight with
            index := i, bridge := some b }, none, s')) ∧
    (∀ (σ : Type) (E : Env σ) (s : σ) (b : Bridge) (i : Int),
      (getLightByIndex E s b i).2.1 ≠ none ↔
        (∃ e s', E.getF s (lightURI b i) = (.error e, s')) ∨
        (∃ body s', E.getF s (lightURI b i) = (.ok body, s') ∧
          goStringsContains body notAvailableMarker = true)) := by
  have h1 : ∀ (σ : Type) (E : Env σ) (s : σ) (b : Bridge) (i : Int) (e : Err)
      (s' : σ), E.getF s (lightURI b i) = (.error e, s') →
      getLightByIndex E s b i = (zeroLight, some e, s') := by
    intro σ E s b i e s' h
    unfold getLightByIndex
    rw [h]
  have h2 : ∀ (σ : Type) (E : Env σ) (s : σ) (b : Bridge) (i : Int)
      (body : String) (s' : σ), E.getF s (lightURI b i) = (.ok body, s') →
      goStringsContains body notAvailableMarker = true →
      getLightByIndex E s b i = (zeroLight, some "Index Error", s') := by
    intro σ E s b i body s' h hm
    unfold getLightByIndex
    rw [h]
    dsimp only
    rw [if_pos hm]
  have h3 : ∀ (σ : Type) (E : Env σ) (s : σ) (b : Bridge) (i : Int)
      (body : String) (s' : σ), E.getF s (lightURI b i) = (.ok body, s') →
      goStringsContains body notAvailableMarker = false →
      getLightByIndex E s b i =
        ({ (E.decodeF body).getD zeroLight with
            index := i, bridge := some b }, none, s') := by
    intro σ E s b i body s' h hm
    unfold getLightByIndex
    rw [h]
    dsimp only
    rw [if_neg (by simp [hm])]
  refine ⟨h1, h2, h3, ?_⟩
  intro σ E s b i
  rcases hg : E.getF s (lightURI b i) with ⟨r, s₀⟩
  rcases r with e₀ | body
  · rw [h1 σ E s b i e₀ s₀ hg]
    constructor
    · intro _
      exact Or.inl ⟨e₀, s₀, rfl⟩
    · intro _
      simp
  · by_cases hm : goStringsContains body notAvailableMarker = true
    · rw [h2 σ E s b i body s₀ hg hm]
      constructor
      · intro _
        exact Or.inr ⟨body, s₀, rfl, hm⟩
      · intro _
        simp
    · have hm' : goStringsContains body notAvailableMarker = false := by
        simpa using hm
      rw [h3 σ E s b i body s₀ hg hm']
      constructor
      · intro hcontra
        exact absurd rfl hcontra
      · rintro (⟨e, s', heq⟩ | ⟨body', s', heq, hmm⟩)
        · simp at heq
        · simp only [Prod.mk.injEq, Except.ok.injEq] at heq
          rw [← heq.1] at hmm
          rw [hm'] at hmm
          exact absurd hmm (by simp)

/-- Witness for C4: an empty-table bridge answers the sentinel body,
and the fetch fails with the `"Index Error"` kind. -/
theorem getLightByIndex_sentinel_witness :
    (tableEnv "u" []).getF () (lightURI bridgeU 1) =
      (.ok "resource not available", ()) ∧
    goStringsContains "resource not available" notAvailableMarker = true ∧
    getLightByIndex (tableEnv "u" []) () bridgeU 1 =
      (zeroLight, some "Index Error", ()) :=
  ⟨rfl, by decide,
    getLightByIndex_sentinel.2.1 Unit (tableEnv "u" []) () bridgeU 1
      "resource not available" () rfl (by decide)⟩

/-- C5: if the PUT of `SetState` fails, the transport error is
returned unchanged and the mirror value is exactly the pre-call one —
no partial update. -/
theorem setState_puterror (σ : Type) (E : Env σ) (s : σ) (light : Light)
    (b : Bridge) (p : LightState) (e : Err) (s₁ : σ)
    (hb : light.bridge = some b)
    (hput : E.putF s (stateURI b light.index) p = (some e, s₁)) :
    setState E s light p = (light, some e, s₁) := by
  unfold setState
  rw [hb]
  dsimp only
  rw [hput]

/-- Witness for C5: a transport whose PUT fails leaves `mirror0`
untouched and surfaces the PUT error. -/
theorem setState_puterror_witness :
    mirror0.bridge = some bridgeU ∧
    failEnv.putF () (stateURI bridgeU mirror0.index) blinkMax =
      (some "put transport down", ()) ∧
    setState failEnv () mirror0 blinkMax =
      (mirror0, some "put transport down", ()) :=
  ⟨rfl, rfl,
    setState_puterror Unit failEnv () mirror0 bridgeU blinkMax
      "put transport down" () rfl rfl⟩

/-- C9: if the PUT succeeds but the confirmatory fetch fails,
`SetState` overwrites the mirror with the zero `Light{}` — all
attributes cleared, `index = 0`, Bridge reference `nil` — and returns
the fetch error. -/
theorem setState_fetchfail_zero (σ : Type) (E : Env σ) (s : σ)
    (light : Light) (b : Bridge) (p : LightState) (e₂ : Err) (s₁ : σ)
    (l₂ : Light) (s₂ : σ)
    (hb : light.bridge = some b)
    (hput : E.putF s (stateURI b light.index) p = (none, s₁))
    (hget : getLightByIndex E s₁ b light.index = (l₂, some e₂, s₂)) :
    setState E s light p = (zeroLight, some e₂, s₂) ∧
    zeroLight.index = 0 ∧ zeroLight.bridge = none ∧
    zeroLight.state = zeroAttrs := by
  have hz : l₂ = zeroLight := getLightByIndex_err_zero hget
  refine ⟨?_, rfl, rfl, rfl⟩
  unfold setState
  rw [hb]
  dsimp only
  rw [hput]
  dsimp only
  rw [hget, hz]

/-- Witness for C9: PUT succeeds, GET fails, and the mirror becomes
the zero `Light{}`. -/
theorem setState_fetchfail_zero_witness :
    mirror7.bridge = some bridgeU ∧
    putOkGetFailEnv.putF () (stateURI bridgeU mirror7.index) blinkMax =
      (none, ()) ∧
    getLightByIndex putOkGetFailEnv () bridgeU mirror7.index =
      (zeroLight, some "get transport down", ()) ∧
    setState putOkGetFailEnv () mirror7 blinkMax =
      (zeroLight, some "get transport down", ()) :=
  ⟨rfl, rfl, rfl,
    (setState_fetchfail_zero Unit putOkGetFailEnv () mirror7 bridgeU blinkMax
      "get transport down" () zeroLight () rfl rfl rfl).1⟩

/-- C10: a sentinel-free body that the decode oracle rejects still
yields success: a `nil` error and a mirror whose attributes are all
zero values, with only `index` and the Bridge reference set. -/
theorem getLightByIndex_decodefail (σ : Type) (E : Env σ) (s : σ)
    (b : Bridge) (i : Int) (body : String) (s' : σ)
    (hget : E.getF s (lightURI b i) = (.ok body, s'))
    (hmark : goStringsContains body notAvailableMarker = false)
    (hdec : E.decodeF body = none) :
    getLightByIndex E s b i =
      ({ zeroLight with index := i, bridge := some b }, none, s') ∧
    ({ zeroLight with index := i, bridge := some b } : Light).state =
      zeroAttrs := by
  refine ⟨?_, rfl⟩
  unfold getLightByIndex
  rw [hget]
  dsimp only
  rw [if_neg (by simp [hmark])]
  rw [hdec]
  rfl

/-- Witness for C10: a garbage body decodes to nothing, yet the fetch
reports success with a zero-attribute mirror stamped at index 1. -/
theorem getLightByIndex_decodefail_witness :
    garbageEnv.getF () (lightURI bridgeU 1) = (.ok "junk body", ()) ∧
    goStringsContains "junk body" notAvailableMarker = false ∧
    garbageEnv.decodeF "junk body" = none ∧
    getLightByIndex garbageEnv () bridgeU 1 =
      ({ zeroLight with index := 1, bridge := some bridgeU }, none, ()) :=
  ⟨rfl, by decide, rfl,
    (getLightByIndex_decodefail Unit garbageEnv () bridgeU 1 "junk body" ()
      rfl (by decide) rfl).1⟩

/-- C1: on `SetState` success the mirror is exactly the value fetched
by `GetLightByIndex` after the PUT, with `index` and the Bridge
reference equal to their pre-call values; against a faithful
single-device bridge the call succeeds and a patch with power `true`
leaves the mirror's power flag `true`. -/
theorem setState_refetch :
    (∀ (σ : Type) (E : Env σ) (s : σ) (light : Light) (b : Bridge)
        (p : LightState) (l' : Light) (s₂ : σ),
      light.bridge = some b →
      setState E s light p = (l', none, s₂) →
      ∃ s₁, E.putF s (stateURI b light.index) p = (none, s₁) ∧
        getLightByIndex E s₁ b light.index = (l', none, s₂) ∧
        l'.index = light.index ∧ l'.bridge = light.bridge) ∧
    (∀ (u : String) (di : Int) (dev m : Light) (p : LightState),
      m.bridge = some ⟨u⟩ → m.index = di →
      (setState (hueEnv u di) dev m p).2.1 = none ∧
      (setState (hueEnv u di) dev m p).1.index = m.index ∧
      (setState (hueEnv u di) dev m p).1.bridge = m.bridge ∧
      (p.on' = true → (setState (hueEnv u di) dev m p).1.state.on' = true) ∧
      (setState (hueEnv u di) dev m p).1 =
        (getLightByIndex (hueEnv u di)
          ((hueEnv u di).putF dev (stateURI ⟨u⟩ di) p).2 ⟨u⟩ di).1) := by
  constructor
  · intro σ E s light b p l' s₂ hb h
    unfold setState at h
    rw [hb] at h
    dsimp only at h
    rcases hput : E.putF s (stateURI b light.index) p with ⟨e₁, s₁⟩
    rw [hput] at h
    rcases e₁ with _ | e₁
    · dsimp only at h
      obtain ⟨hidx, hbr⟩ := getLightByIndex_ok_stamp h
      exact ⟨s₁, rfl, h, hidx, by rw [hbr, hb]⟩
    · dsimp only at h
      simp only [Prod.mk.injEq] at h
      exact absurd h.2.1 (by simp)
  · intro u di dev m p hb hi
    rw [setState_hueEnv u di dev m p hb hi]
    have hput : (hueEnv u di).putF dev (stateURI ⟨u⟩ di) p =
        (none, { dev with state := applyLightState dev.state p }) := by
      simp [hueEnv]
    refine ⟨rfl, hi.symm, hb.symm, ?_, ?_⟩
    · intro hp
      simp [applyLightState, hp]
    · rw [hput, getLightByIndex_hueEnv]

/-- Witness for C1: a concrete on-patch against the faithful bridge
turns the mirror on, preserving index and Bridge. -/
theorem setState_refetch_witness :
    mirror0.bridge = some (⟨"u"⟩ : Bridge) ∧ mirror0.index = 1 ∧
    blinkMax.on' = true ∧
    (setState (hueEnv "u" 1) zeroLight mirror0 blinkMax).1.state.on' = true :=
  ⟨rfl, rfl, rfl,
    (setState_refetch.2 "u" 1 zeroLight mirror0 blinkMax rfl rfl).2.2.2.1 rfl⟩

/-- C2: the discovery scan probes sequentially and stops at the first
failing index — nothing after a gap is returned; over the world
`{1 ↦ L1, 2 ↦ L2, 4 ↦ L4}` with 3 absent it returns exactly the
mirrors for indices 1 and 2, in ascending order, although index 4
exists. -/
theorem getAllLights_gap_stop :
    (∀ (σ : Type) (E : Env σ) (s : σ) (b : Bridge) (i : Int) (n : Nat)
        (l : Light) (e : Err) (s' : σ),
      getLightByIndex E s b i = (l, some e, s') →
      scanFrom E b s i (n + 1) = ([], s')) ∧
    (∀ (σ : Type) (E : Env σ) (s : σ) (b : Bridge) (i : Int) (n : Nat)
        (l : Light) (s' : σ),
      getLightByIndex E s b i = (l, none, s') →
      scanFrom E b s i (n + 1) =
        (l :: (scanFrom E b s' (i + 1) n).1, (scanFrom E b s' (i + 1) n).2)) ∧
    (∀ (u : String) (L1 L2 L4 : Light),
      getAllLights (tableEnv u [(1, L1), (2, L2), (4, L4)]) () ⟨u⟩ =
        ([{ L1 with index := 1, bridge := some ⟨u⟩ },
          { L2 with index := 2, bridge := some ⟨u⟩ }], none, ())) := by
  refine ⟨fun σ E s b i n l e s' h => scanFrom_stop E b s i n h,
    fun σ E s b i n l s' h => scanFrom_step E b s i n h, ?_⟩
  intro u L1 L2 L4
  have hne12 : (lightURI ⟨u⟩ 1 == lightURI ⟨u⟩ 2) = false :=
    beq_eq_false_iff_ne.mpr (lightURI_ne u 1 2 (by decide))
  have hne13 : (lightURI ⟨u⟩ 1 == lightURI ⟨u⟩ 3) = false :=
    beq_eq_false_iff_ne.mpr (lightURI_ne u 1 3 (by decide))
  have hne23 : (lightURI ⟨u⟩ 2 == lightURI ⟨u⟩ 3) = false :=
    beq_eq_false_iff_ne.mpr (lightURI_ne u 2 3 (by decide))
  have hne43 : (lightURI ⟨u⟩ 4 == lightURI ⟨u⟩ 3) = false :=
    beq_eq_false_iff_ne.mpr (lightURI_ne u 4 3 (by decide))
  have hf1 : ([(1, L1), (2, L2), (4, L4)] : List (Int × Light)).find?
      (fun e => lightURI ⟨u⟩ e.1 == lightURI ⟨u⟩ 1) = some (1, L1) :=
    List.find?_cons_of_pos _ (by simp)
  have hf2 : ([(1, L1), (2, L2), (4, L4)] : List (Int × Light)).find?
      (fun e => lightURI ⟨u⟩ e.1 == lightURI ⟨u⟩ 2) = some (2, L2) := by
    rw [List.find?_cons_of_neg _ (by simp [hne12]),
      List.find?_cons_of_pos _ (by simp)]
  have hf3 : ([(1, L1), (2, L2), (4, L4)] : List (Int × Light)).find?
      (fun e => lightURI ⟨u⟩ e.1 == lightURI ⟨u⟩ 3) = none := by
    rw [List.find?_cons_of_neg _ (by simp [hne13]),
      List.find?_cons_of_neg _ (by simp [hne23]),
      List.find?_cons_of_neg _ (by simp [hne43])]
    rfl
  have hfetch1 := tableFetch_hit u [(1, L1), (2, L2), (4, L4)] 1 1 L1 hf1
  have hfetch2 := tableFetch_hit u [(1, L1), (2, L2), (4, L4)] 2 2 L2 hf2
  have hfetch3 := tableFetch_miss u [(1, L1), (2, L2), (4, L4)] 3 hf3
  have hs3 : scanFrom (tableEnv u [(1, L1), (2, L2), (4, L4)]) ⟨u⟩ () 3 98 =
      ([], ()) :=
    scanFrom_stop _ _ _ _ 97 hfetch3
  have hs2 : scanFrom (tableEnv u [(1, L1), (2, L2), (4, L4)]) ⟨u⟩ () 2 99 =
      ([{ L2 with index := 2, bridge := some ⟨u⟩ }], ()) := by
    show scanFrom (tableEnv u [(1, L1), (2, L2), (4, L4)]) ⟨u⟩ () 2 (98 + 1) = _
    rw [scanFrom_step _ _ _ _ 98 hfetch2]
    simp only [Int.reduceAdd]
    rw [hs3]
  have hs1 : scanFrom (tableEnv u [(1, L1), (2, L2), (4, L4)]) ⟨u⟩ () 1 100 =
      ([{ L1 with index := 1, bridge := some ⟨u⟩ },
        { L2 with index := 2, bridge := some ⟨u⟩ }], ()) := by
    show scanFrom (tableEnv u [(1, L1), (2, L2), (4, L4)]) ⟨u⟩ () 1 (99 + 1) = _
    rw [scanFrom_step _ _ _ _ 99 hfetch1]
    simp only [Int.reduceAdd]
    rw [hs2]
  unfold getAllLights
  rw [hs1]

/-- Witness for C2: the scan stops immediately at a failing transport. -/
theorem getAllLights_gap_stop_witness :
    getLightByIndex failEnv () bridgeU 5 =
      (zeroLight, some "get transport down", ()) ∧
    scanFrom failEnv bridgeU () 5 4 = ([], ()) :=
  ⟨rfl, getAllLights_gap_stop.1 Unit failEnv () bridgeU 5 3 zeroLight
    "get transport down" () rfl⟩

/-- C3 (amended): before its restore phase, `Blink` sends one initial
maximum patch and then `2*seconds + 1` loop patches alternating
between the brightness-200 and brightness-50 "on" patches starting
with the maximum (`2*seconds + 2` patches in total, not `2*seconds`);
the two-steps-per-second pacing is a half-second sleep between steps,
which has no modelled effect. -/
theorem blink_trace (m : Light) (b : Bridge) (hb : m.bridge = some b)
    (seconds : Int) :
    blink (logEnv m) [] m seconds = (m, none, blinkTraceSpec seconds) ∧
    (blinkTraceSpec seconds).length = (2 * seconds + 1).toNat + 1 ∧
    blinkMax.on' = true ∧ blinkMax.bri = 200 ∧
    blinkMin.on' = true ∧ blinkMin.bri = 50 := by
  refine ⟨blink_logEnv m b hb seconds, ?_, rfl, rfl, rfl, rfl⟩
  simp [blinkTraceSpec, oscSteps_length]

/-- Counterexample for C3: at duration 0 the code sends two
maximum patches before the restore phase, not `2 * 0 = 0`
oscillation steps. -/
theorem blink_trace_cex :
    (blink (logEnv mirror0) [] mirror0 0).2.2 = [blinkMax, blinkMax] ∧
    ¬((blink (logEnv mirror0) [] mirror0 0).2.2.length = 2 * 0) := by
  have h := blink_logEnv mirror0 bridgeU rfl 0
  constructor
  · rw [h]
    rfl
  · rw [h]
    simp [blinkTraceSpec, oscSteps]

/-- Witness for C3: the trace equation at duration 1. -/
theorem blink_trace_witness :
    mirror7.bridge = some bridgeU ∧
    blink (logEnv mirror7) [] mirror7 1 = (mirror7, none, blinkTraceSpec 1) :=
  ⟨rfl, (blink_trace mirror7 bridgeU rfl 1).1⟩

/-- Witness for C6: a mirror with brightness 7 (in range `1..255`)
gets its power flag and brightness restored after `Blink`. -/
theorem blink_restores_witness :
    mirror7.bridge = some (⟨"u"⟩ : Bridge) ∧ mirror7.index = 1 ∧
    1 ≤ mirror7.state.bri ∧ mirror7.state.bri ≤ 255 ∧
    ((blink (hueEnv "u" 1) zeroLight mirror7 0).2.1 = none ∧
      (blink (hueEnv "u" 1) zeroLight mirror7 0).1.state.on' =
        mirror7.state.on' ∧
      (blink (hueEnv "u" 1) zeroLight mirror7 0).1.state.bri =
        mirror7.state.bri) :=
  ⟨rfl, rfl, by decide, by decide,
    blink_restores "u" 1 zeroLight mirror7 0 rfl rfl (by decide) (by decide)⟩

set_option maxRecDepth 4000 in
set_option maxHeartbeats 1000000 in
/-- Counterexample for C6: a mirror whose cached brightness is 0 is
not restored — `uint8(0)` is the zero value, `omitempty` drops it
from the corrective patch, and the mirror ends at brightness 200. -/
theorem blink_restores_cex :
    mirror0.state.bri = 0 ∧
    (blink (hueEnv "u" 1) zeroLight mirror0 0).2.1 = none ∧
    (blink (hueEnv "u" 1) zeroLight mirror0 0).1.state.bri = 200 ∧
    (blink (hueEnv "u" 1) zeroLight mirror0 0).1.state.bri ≠
      mirror0.state.bri := by
  refine ⟨rfl, ?_, ?_, ?_⟩ <;> decide

set_option maxRecDepth 4000 in
set_option maxHeartbeats 1000000 in
/-- C7: `GetLightByName` scans all lights and returns the first one
whose name equals the target exactly (case-sensitively), or the
`"Light not found."` error when no exact match exists; over
`{"Lamp", "Desk"}` the target `"Desk"` matches while the
case-mismatched `"desk"` yields the not-found error. -/
theorem getLightByName_exact :
    (∀ (σ : Type) (E : Env σ) (s : σ) (b : Bridge) (name : String)
        (l₀ : Light),
      (getAllLights E s b).1.find? (fun l => l.name == name) = some l₀ →
      getLightByName E s b name = (l₀, none, (getAllLights E s b).2.2) ∧
      l₀.name = name ∧ l₀ ∈ (getAllLights E s b).1) ∧
    (∀ (σ : Type) (E : Env σ) (s : σ) (b : Bridge) (name : String),
      (∀ l ∈ (getAllLights E s b).1, l.name ≠ name) →
      getLightByName E s b name =
        (zeroLight, some "Light not found.", (getAllLights E s b).2.2)) ∧
    (getLightByName (tableEnv "u" nameTable) () bridgeU "Desk" =
        ({ deskLight with index := 2, bridge := some bridgeU }, none, ()) ∧
      getLightByName (tableEnv "u" nameTable) () bridgeU "desk" =
        (zeroLight, some "Light not found.", ())) := by
  refine ⟨?_, ?_, by decide, by decide⟩
  · intro σ E s b name l₀ h
    rcases hga : getAllLights E s b with ⟨ls, e₀, s'⟩
    rw [hga] at h
    dsimp only at h
    unfold getLightByName
    rw [hga]
    dsimp only
    rw [h]
    have hp := List.find?_some h
    exact ⟨rfl, eq_of_beq hp, List.mem_of_find?_eq_some h⟩
  · intro σ E s b name h
    rcases hga : getAllLights E s b with ⟨ls, e₀, s'⟩
    rw [hga] at h
    dsimp only at h
    unfold getLightByName
    rw [hga]
    dsimp only
    rw [List.find?_eq_none.mpr
      (fun x hx hbe => h x hx (eq_of_beq hbe))]

set_option maxRecDepth 4000 in
set_option maxHeartbeats 1000000 in
/-- Witness for C7: the exact-match branch applied to the `"Lamp"`
lookup over the two-light world. -/
theorem getLightByName_exact_witness :
    ((getAllLights (tableEnv "u" nameTable) () bridgeU).1.find?
        (fun l => l.name == "Lamp") =
      some { lampLight with index := 1, bridge := some bridgeU }) ∧
    getLightByName (tableEnv "u" nameTable) () bridgeU "Lamp" =
      ({ lampLight with index := 1, bridge := some bridgeU }, none,
        (getAllLights (tableEnv "u" nameTable) () bridgeU).2.2) :=
  ⟨by decide,
    (getLightByName_exact.1 Unit (tableEnv "u" nameTable) () bridgeU "Lamp"
      { lampLight with index := 1, bridge := some bridgeU } (by decide)).1⟩

/-- C8: `GetAllLights` always returns a `nil` error (an empty list is
a valid result), and it probes only the per-index light resources for
indices in the fixed inclusive range 1 through 100. -/
theorem getAllLights_total_bounded :
    (∀ (σ : Type) (E : Env σ) (s : σ) (b : Bridge),
      (getAllLights E s b).2.1 = none) ∧
    (∀ (σ : Type) (E : Env σ) (s : σ) (b : Bridge),
      ∃ probes : List String,
        (getAllLights (instr E) (s, []) b).2.2.2 = probes ∧
        probes.length ≤ 100 ∧
        ∀ uri ∈ probes, ∃ j : Int, 1 ≤ j ∧ j ≤ 100 ∧ uri = lightURI b j) := by
  constructor
  · intro σ E s b
    unfold getAllLights
    rcases hsc : scanFrom E b s 1 100 with ⟨ls, s'⟩
    rfl
  · intro σ E s b
    obtain ⟨new, hlog, hlen, hmem⟩ := scanFrom_instr E b 100 1 s []
    refine ⟨new, ?_, hlen, ?_⟩
    · unfold getAllLights
      rcases hsc : scanFrom (instr E) b (s, []) 1 100 with ⟨ls, w⟩
      rw [hsc] at hlog
      dsimp only at hlog ⊢
      rw [hlog]
      simp
    · intro uri hm
      obtain ⟨j, hj1, hj2, hj3⟩ := hmem uri hm
      exact ⟨j, hj1, by omega, hj3⟩

/-- Witness for C8: on a failing transport the scan probes only the
index-1 resource and still reports no error. -/
theorem getAllLights_total_bounded_witness :
    (getAllLights failEnv () bridgeU).2.1 = none ∧
    (getAllLights (instr failEnv) ((), []) bridgeU).2.2.2 =
      [lightURI bridgeU 1] :=
  ⟨getAllLights_total_bounded.1 Unit failEnv () bridgeU, by rfl⟩

end GoHue
